import Mathlib

/-!
Verification development for the Secret Network MCP query-construction
subsystem (`src/queries`, `src/permits`, `src/query-adapters.ts`).

The TypeScript source is shallowly embedded:
* JSON-like dynamic values become the inductive `Jv`; a JavaScript object
  is represented as its ordered field list (keys distinct, insertion
  order preserved, as JavaScript object literals guarantee).
* JavaScript truthiness of possibly-absent strings (`undefined` and `""`
  are falsy) is `truthyStr`; note `![]` is `false` in JavaScript, so a
  *present* empty array is truthy.
* Thrown exceptions become `Except` results; the distinction between the
  `PermitValidationError` subclass and a plain `Error` is carried by the
  `PermitError` inductive.
-/

namespace SecretMcp

/-- JSON-like dynamic value (the shape of `QueryObject` / permit data in
the TypeScript source). `undef` models JavaScript `undefined`, which is
distinct from `null`. Objects are ordered field lists with distinct keys. -/
inductive Jv where
  | undef : Jv
  | null : Jv
  | bool (b : Bool) : Jv
  | num (n : Int) : Jv
  | str (s : String) : Jv
  | arr (items : List Jv) : Jv
  | obj (fields : List (String × Jv)) : Jv

/-- JavaScript truthiness of a dynamic value: `undefined`, `null`,
`false`, `0`, and `""` are falsy; every object and array is truthy. -/
def jsTruthy : Jv → Bool
  | Jv.undef => false
  | Jv.null => false
  | Jv.bool b => b
  | Jv.num n => !(n == 0)
  | Jv.str s => !(s == "")
  | Jv.arr _ => true
  | Jv.obj _ => true

/-- JavaScript truthiness of an optional string field (`undefined` and
the empty string are falsy). -/
def truthyStr : Option String → Bool
  | none => false
  | some s => !(s == "")

/-- Look up a key in an object field list (first match; field lists model
JavaScript objects, whose keys are distinct). -/
def jsLookup (fields : List (String × Jv)) (k : String) : Option Jv :=
  (fields.find? (fun kv => kv.1 == k)).map Prod.snd

/-- The JavaScript `in` operator on an object's field list. -/
def jsHasKey (fields : List (String × Jv)) (k : String) : Bool :=
  (jsLookup fields k).isSome

/-- Property access `o[k]`: `undefined` when the key is absent. -/
def jsGetD (fields : List (String × Jv)) (k : String) : Jv :=
  (jsLookup fields k).getD Jv.undef

/-- `\x7b...o, k: v\x7d`: update `k` in place when present (JavaScript keeps
the original insertion position of an overwritten key), append otherwise. -/
def jsSetKey : List (String × Jv) → String → Jv → List (String × Jv)
  | [], k, v => [(k, v)]
  | (k', v') :: rest, k, v =>
    if k' == k then (k', v) :: rest else (k', v') :: jsSetKey rest k v

/-- Object spread `\x7b...v\x7d` of a dynamic value: objects contribute their
fields, arrays and strings their index-keyed elements, and every other
value (including `null` and `undefined`) contributes nothing. -/
def spreadFields : Jv → List (String × Jv)
  | Jv.obj fs => fs
  | Jv.arr items => items.enum.map (fun iv => (toString iv.1, iv.2))
  | Jv.str s => s.data.enum.map (fun ic => (toString ic.1, Jv.str (String.mk [ic.2])))
  | _ => []

/-- `typeof q === 'object' && q !== null` (arrays are objects; `null` has
typeof `'object'` but fails the second conjunct). -/
def jsIsObjectNotNull : Jv → Bool
  | Jv.obj _ => true
  | Jv.arr _ => true
  | _ => false

/-! ## Permit data model (src/queries/base/AuthMethod.ts, src/permits/types.ts) -/

/-- `pub_key` part of a raw (untrusted) permit signature; every field may
be absent. -/
structure RawPubKey where
  type : Option String
  value : Option String
  deriving Repr, DecidableEq

/-- Raw permit signature object. -/
structure RawSignature where
  pub_key : Option RawPubKey
  signature : Option String
  deriving Repr, DecidableEq

/-- Raw permit `params` object; every field may be absent. -/
structure RawParams where
  permit_name : Option String
  allowed_tokens : Option (List String)
  permissions : Option (List String)
  chain_id : Option String
  deriving Repr, DecidableEq

/-- `RawPermit`: untrusted input from the signing flow. Besides `params`
and `signature` it may carry a legacy top-level `chain_id` (the other
extra top-level fields — `account_number`, `sequence`, `memo`, … — are
discarded by cleaning and never read, so they are not modelled). -/
structure RawPermit where
  params : Option RawParams
  signature : Option RawSignature
  chain_id : Option String
  deriving Repr, DecidableEq

/-- Canonical validated `pub_key`. -/
structure PubKey where
  type : String
  value : String
  deriving Repr, DecidableEq

/-- Canonical validated permit signature. -/
structure PermitSignature where
  pub_key : PubKey
  signature : String
  deriving Repr, DecidableEq

/-- Canonical validated permit `params`. -/
structure PermitParams where
  permit_name : String
  allowed_tokens : List String
  permissions : List String
  chain_id : String
  deriving Repr, DecidableEq

/-- Canonical SNIP-24 `Permit` produced by validate-and-clean. -/
structure Permit where
  params : PermitParams
  signature : PermitSignature
  deriving Repr, DecidableEq

/-- Kind of a thrown error: `validationError` models the
`PermitValidationError` subclass (src/permits/validation.ts), while
`genericError` models a plain `Error`. -/
inductive PermitError where
  | validationError (message : String) : PermitError
  | genericError (message : String) : PermitError
  deriving Repr, DecidableEq

/-- Whether a thrown error is of the `PermitValidationError` kind. -/
def PermitError.isValidationError : PermitError → Bool
  | PermitError.validationError _ => true
  | PermitError.genericError _ => false

/-! ## PermitAuth.cleanAndValidatePermit (src/queries/auth/PermitAuth.ts)

The source checks fields with JavaScript truthiness (`!x`) in this exact
order, throwing plain `Error`s. Note `!params.permissions` is `false`
for a *present empty* array, so `permissions: []` passes; the
`Array.isArray` tests are vacuous under the typed embedding (a present
list field is an array). `chain_id` resolution uses `||`, so a present
empty string falls through to the next alternative. -/

/-- Embedding of `PermitAuth.cleanAndValidatePermit`. -/
def cleanAndValidatePermit (rawPermit : RawPermit) : Except PermitError Permit :=
  match rawPermit.params with
  | none => Except.error (PermitError.genericError "Invalid permit: missing params object")
  | some params =>
    match rawPermit.signature with
    | none => Except.error (PermitError.genericError "Invalid permit: missing signature object")
    | some signature =>
      match signature.pub_key with
      | none => Except.error (PermitError.genericError "Invalid permit: missing signature.pub_key")
      | some pub_key =>
        if !(truthyStr signature.signature) then
          Except.error (PermitError.genericError "Invalid permit: missing signature.signature")
        else if !(truthyStr params.permit_name) then
          Except.error (PermitError.genericError "Invalid permit: missing permit_name")
        else
          match params.allowed_tokens with
          | none => Except.error (PermitError.genericError "Invalid permit: missing or invalid allowed_tokens array")
          | some allowed_tokens =>
            match params.permissions with
            | none => Except.error (PermitError.genericError "Invalid permit: missing or invalid permissions array")
            | some permissions =>
              let chainId :=
                if truthyStr params.chain_id then params.chain_id.getD ""
                else if truthyStr rawPermit.chain_id then rawPermit.chain_id.getD ""
                else "secret-4"
              if !(truthyStr pub_key.type) || !(truthyStr pub_key.value) then
                Except.error (PermitError.genericError "Invalid permit: incomplete pub_key structure")
              else
                Except.ok
                  { params :=
                      { permit_name := params.permit_name.getD ""
                        allowed_tokens := allowed_tokens
                        permissions := permissions
                        chain_id := chainId }
                    signature :=
                      { pub_key :=
                          { type := pub_key.type.getD ""
                            value := pub_key.value.getD "" }
                        signature := signature.signature.getD "" } }

/-- Encode a canonical `Permit` as the JSON-like object produced by the
source's `cleanPermit` object literal (field order as written there). -/
def encodePermit (p : Permit) : Jv :=
  Jv.obj
    [("params", Jv.obj
        [("permit_name", Jv.str p.params.permit_name),
         ("allowed_tokens", Jv.arr (p.params.allowed_tokens.map Jv.str)),
         ("permissions", Jv.arr (p.params.permissions.map Jv.str)),
         ("chain_id", Jv.str p.params.chain_id)]),
     ("signature", Jv.obj
        [("pub_key", Jv.obj
            [("type", Jv.str p.signature.pub_key.type),
             ("value", Jv.str p.signature.pub_key.value)]),
         ("signature", Jv.str p.signature.signature)])]

/-- `PermitAuth` holds the one canonical permit produced at construction. -/
structure PermitAuth where
  permit : Permit

/-- The `PermitAuth` constructor: runs `cleanAndValidatePermit` on the raw
permit and stores the canonical result (a thrown error becomes `Except.error`). -/
def PermitAuth.make (rawPermit : RawPermit) : Except PermitError PermitAuth :=
  (cleanAndValidatePermit rawPermit).map PermitAuth.mk

/-- Embedding of `PermitAuth.wrap`: the uniform SNIP-24 envelope. -/
def PermitAuth.wrap (auth : PermitAuth) (query : Jv) : Jv :=
  Jv.obj [("with_permit", Jv.obj [("permit", encodePermit auth.permit), ("query", query)])]

/-- Embedding of `PermitAuth.hasPermission` (method form). -/
def PermitAuth.hasPermissionM (auth : PermitAuth) (permission : String) : Bool :=
  auth.permit.params.permissions.contains permission

/-! ## ViewingKeyAuth (src/queries/auth/ViewingKeyAuth.ts) -/

/-- The `ViewingKeyAuth` constructor: rejects a falsy address or viewing
key (in JavaScript, `!address` also fires on the empty string). -/
def ViewingKeyAuth.make (address viewingKey : String) : Except PermitError (String × String) :=
  if address == "" then
    Except.error (PermitError.genericError "Address is required for viewing key authentication")
  else if viewingKey == "" then
    Except.error (PermitError.genericError "Viewing key is required for viewing key authentication")
  else
    Except.ok (address, viewingKey)

/-- Embedding of `ViewingKeyAuth.wrap`. The per-variant dispatch uses the
JavaScript `in` operator, which is only defined on objects and arrays (on
a primitive or `null` it throws a `TypeError`, modelled by the `none`
branch of the initial match). Note the `allowance` branch additionally
requires `query.allowance` to be truthy; when it is present but falsy the
query falls through to the later branches. The trailing
unsupported-query-type `throw` is kept exactly where the source has it,
guarded by `typeof query === 'object' && query !== null`. -/
def ViewingKeyAuth.wrap (address viewingKey : String) (query : Jv) : Except PermitError Jv :=
  let inFields : Option (List (String × Jv)) :=
    match query with
    | Jv.obj fields => some fields
    | Jv.arr items => some (spreadFields (Jv.arr items))
    | _ => none
  match inFields with
  | none =>
    Except.error (PermitError.genericError "TypeError: cannot use in operator on a non-object")
  | some fields =>
    if jsHasKey fields "balance" then
      Except.ok (Jv.obj
        [("balance", Jv.obj [("address", Jv.str address), ("key", Jv.str viewingKey)])])
    else if jsHasKey fields "allowance" && jsTruthy (jsGetD fields "allowance") then
      Except.ok (Jv.obj
        [("allowance", Jv.obj
            (jsSetKey (spreadFields (jsGetD fields "allowance")) "key" (Jv.str viewingKey)))])
    else if jsHasKey fields "transfer_history" then
      Except.ok (Jv.obj
        [("transfer_history", Jv.obj
            (jsSetKey (jsSetKey (spreadFields (jsGetD fields "transfer_history"))
              "address" (Jv.str address)) "key" (Jv.str viewingKey)))])
    else if jsHasKey fields "transaction_history" then
      Except.ok (Jv.obj
        [("transaction_history", Jv.obj
            (jsSetKey (jsSetKey (spreadFields (jsGetD fields "transaction_history"))
              "address" (Jv.str address)) "key" (Jv.str viewingKey)))])
    else if jsIsObjectNotNull query then
      Except.ok (Jv.obj
        (jsSetKey fields "viewer"
          (Jv.obj [("address", Jv.str address), ("viewing_key", Jv.str viewingKey)])))
    else
      Except.error (PermitError.genericError
        ("Viewing key authentication not supported for query type: "
          ++ String.intercalate ", " (fields.map Prod.fst)))

/-! ## AuthMethod variants and the builder hierarchy
(src/queries/base/QueryBuilder.ts, src/queries/auth/NoAuth.ts,
src/queries/token/AllowanceQuery.ts) -/

/-- Closed set of `AuthMethod` variants. -/
inductive AuthMethod where
  | noAuth : AuthMethod
  | viewingKeyAuth (address viewingKey : String) : AuthMethod
  | permitAuth (auth : PermitAuth) : AuthMethod

/-- Dispatch of `AuthMethod.wrap`: `NoAuth.wrap` is the identity,
`ViewingKeyAuth.wrap` injects per variant, `PermitAuth.wrap` envelopes. -/
def AuthMethod.wrap : AuthMethod → Jv → Except PermitError Jv
  | AuthMethod.noAuth, query => Except.ok query
  | AuthMethod.viewingKeyAuth address viewingKey, query =>
      ViewingKeyAuth.wrap address viewingKey query
  | AuthMethod.permitAuth auth, query => Except.ok (auth.wrap query)

/-- `AllowanceQuery` builder state: optional owner, spender and auth. -/
structure AllowanceQuery where
  owner : Option String
  spender : Option String
  authMethod : Option AuthMethod

/-- `AllowanceQuery.create()`. -/
def AllowanceQuery.create : AllowanceQuery := ⟨none, none, none⟩

/-- Static `AllowanceQuery.between(owner, spender)`. -/
def AllowanceQuery.between (owner spender : String) : AllowanceQuery :=
  ⟨some owner, some spender, none⟩

/-- Fluent `withAuth`. -/
def AllowanceQuery.withAuth (q : AllowanceQuery) (auth : AuthMethod) : AllowanceQuery :=
  { q with authMethod := some auth }

/-- `AllowanceQuery.buildQuery()`: throws when owner or spender is falsy
(absent, or present as the empty string). -/
def AllowanceQuery.buildQuery (q : AllowanceQuery) : Except PermitError Jv :=
  if !(truthyStr q.owner) then
    Except.error (PermitError.genericError "Owner address is required for allowance query")
  else if !(truthyStr q.spender) then
    Except.error (PermitError.genericError "Spender address is required for allowance query")
  else
    Except.ok (Jv.obj
      [("allowance", Jv.obj
          [("owner", Jv.str (q.owner.getD "")), ("spender", Jv.str (q.spender.getD ""))])])

/-- `QueryBuilder.build()` specialised to `AllowanceQuery`: build the base
query, then apply the auth method's wrap when one is set. -/
def AllowanceQuery.build (q : AllowanceQuery) : Except PermitError Jv := do
  let baseQuery ← q.buildQuery
  match q.authMethod with
  | some auth => auth.wrap baseQuery
  | none => Except.ok baseQuery

/-! ## Permits-module validators (src/permits/validation.ts)

These throw the `PermitValidationError` subclass. The `typeof ... !==
'string'` halves of the source's checks cannot fire under the typed
embedding (a present string field is a string); the `!x` truthiness
halves are kept exactly. -/

/-- Embedding of `validatePermitParams` (returns `true` on success). -/
def validatePermitParams (params : Option RawParams) : Except PermitError Bool :=
  match params with
  | none => Except.error (PermitError.validationError "Permit params must be an object")
  | some p =>
    if !(truthyStr p.permit_name) then
      Except.error (PermitError.validationError "permit_name is required and must be a string")
    else if !(truthyStr p.chain_id) then
      Except.error (PermitError.validationError "chain_id is required and must be a string")
    else
      match p.allowed_tokens with
      | none => Except.error (PermitError.validationError "allowed_tokens must be an array")
      | some _ =>
        match p.permissions with
        | none => Except.error (PermitError.validationError "permissions must be an array")
        | some permissions =>
          if permissions.length == 0 then
            Except.error (PermitError.validationError "permissions array cannot be empty")
          else
            Except.ok true

/-- Embedding of `validatePermitSignature`. -/
def validatePermitSignature (signature : Option RawSignature) : Except PermitError Bool :=
  match signature with
  | none => Except.error (PermitError.validationError "Permit signature must be an object")
  | some s =>
    match s.pub_key with
    | none => Except.error (PermitError.validationError "pub_key is required and must be an object")
    | some pk =>
      if !(truthyStr pk.type) then
        Except.error (PermitError.validationError "pub_key.type is required and must be a string")
      else if !(truthyStr pk.value) then
        Except.error (PermitError.validationError "pub_key.value is required and must be a string")
      else if !(truthyStr s.signature) then
        Except.error (PermitError.validationError "signature is required and must be a string")
      else
        Except.ok true

/-- Embedding of `validatePermit`. -/
def validatePermit (permit : Option RawPermit) : Except PermitError Bool :=
  match permit with
  | none => Except.error (PermitError.validationError "Permit must be an object")
  | some p => do
    let _ ← validatePermitParams p.params
    let _ ← validatePermitSignature p.signature
    Except.ok true

/-- `Object.values(NFT_PERMIT_PERMISSIONS)` in declaration order
(src/permits/types.ts). -/
def validNFTPermissions : List String :=
  ["balance", "history", "metadata", "owner", "private_metadata",
   "royalty_info", "tokens", "token_approvals", "inventory_approvals"]

/-- Embedding of `validateNFTPermissions`: iterates the supplied list and
throws a `PermitValidationError` at the first entry outside the fixed
vocabulary, naming that entry and the full valid set. -/
def validateNFTPermissions : List String → Except PermitError Bool
  | [] => Except.ok true
  | permission :: rest =>
    if !(validNFTPermissions.contains permission) then
      Except.error (PermitError.validationError
        ("Invalid NFT permission: " ++ permission ++ ". Valid permissions: "
          ++ String.intercalate ", " validNFTPermissions))
    else
      validateNFTPermissions rest

/-- Embedding of `hasPermission` (src/permits/validation.ts). -/
def hasPermission (permit : Permit) (requiredPermission : String) : Bool :=
  permit.params.permissions.contains requiredPermission

/-- Embedding of `isTokenAllowed` (src/permits/validation.ts). -/
def isTokenAllowed (permit : Permit) (tokenId : String) : Bool :=
  permit.params.allowed_tokens.length == 0 || permit.params.allowed_tokens.contains tokenId

/-! ## Compatibility adapter (src/query-adapters.ts) -/

/-- Encode an optional string as a dynamic value (`undefined` when absent). -/
def encodeOptStr : Option String → Jv
  | none => Jv.undef
  | some s => Jv.str s

/-- Encode a raw signature as a dynamic value. The source's conditional
`\x7b...signature, pub_key: \x7b...\x7d\x7d` copy is a structural no-op under value
semantics, so the encoding is direct. -/
def encodeRawSignature : Option RawSignature → Jv
  | none => Jv.undef
  | some s =>
    Jv.obj
      [("pub_key",
        match s.pub_key with
        | none => Jv.undef
        | some pk => Jv.obj [("type", encodeOptStr pk.type), ("value", encodeOptStr pk.value)]),
       ("signature", encodeOptStr s.signature)]

/-- Embedding of `formatLegacyPermitQuery` (the documented legacy
fallback): builds `cleanPermit.params` from the optional-chained raw
fields, resolves `chain_id` with the same three-way `||`, then deletes
the `undefined` entries (deletion preserves the insertion order of the
remaining keys, so the kept fields appear in source-literal order). -/
def formatLegacyPermitQuery (permit : RawPermit) : Jv :=
  let chainId :=
    if truthyStr (permit.params.bind RawParams.chain_id) then
      (permit.params.bind RawParams.chain_id).getD ""
    else if truthyStr permit.chain_id then permit.chain_id.getD ""
    else "secret-4"
  let paramsFields :=
    (match permit.params.bind RawParams.permit_name with
     | none => []
     | some n => [("permit_name", Jv.str n)])
    ++ (match permit.params.bind RawParams.allowed_tokens with
        | none => []
        | some ts => [("allowed_tokens", Jv.arr (ts.map Jv.str))])
    ++ (match permit.params.bind RawParams.permissions with
        | none => []
        | some ps => [("permissions", Jv.arr (ps.map Jv.str))])
    ++ [("chain_id", Jv.str chainId)]
  Jv.obj
    [("with_permit", Jv.obj
        [("permit", Jv.obj
            [("params", Jv.obj paramsFields),
             ("signature", encodeRawSignature permit.signature)]),
         ("query", Jv.obj [("balance", Jv.obj [])])])]

/-- Embedding of `formatTokenBalanceQuery(address, viewingKey?, permit?)`.
When `permit` is supplied, the new path
`QueryFactory.tokenBalanceWithPermit(permit).build()` is attempted and
any thrown error is caught and answered by the legacy fallback. When no
permit is supplied, a truthy `viewingKey` (JavaScript `if (viewingKey)`)
selects the viewing-key path — whose `ViewingKeyAuth` constructor throws
on a falsy address, uncaught — and otherwise the unauthenticated
`BalanceQuery` base `\x7bbalance: \x7b\x7d\x7d` is returned. -/
def formatTokenBalanceQuery (address : String) (viewingKey : Option String)
    (permit : Option RawPermit) : Except PermitError Jv :=
  match permit with
  | some p =>
    match PermitAuth.make p with
    | Except.ok auth => Except.ok (auth.wrap (Jv.obj [("balance", Jv.obj [])]))
    | Except.error _ => Except.ok (formatLegacyPermitQuery p)
  | none =>
    if truthyStr viewingKey then
      match ViewingKeyAuth.make address (viewingKey.getD "") with
      | Except.error e => Except.error e
      | Except.ok (a, k) => ViewingKeyAuth.wrap a k (Jv.obj [("balance", Jv.obj [])])
    else
      Except.ok (Jv.obj [("balance", Jv.obj [])])

/-! ## Reference semantics for the array clones (`[...params.allowed_tokens]`)

Value-level Lean definitions cannot distinguish an aliased array from a
copied one, so the cloning step of `cleanAndValidatePermit` (the
`Create clean SNIP-24 compliant permit` block) is additionally modelled
with an explicit store: arrays live in a heap of cells, raw and clean
permits hold cell indices, and mutation writes through an index. -/

/-- A store of string-array cells; an array reference is an index. -/
abbrev Heap := List (List String)

/-- Array references held by a raw permit (its `allowed_tokens` and
`permissions` fields under reference semantics). -/
structure RawPermitRefs where
  allowed_tokens : Nat
  permissions : Nat

/-- Array references held by the canonical permit of a `PermitAuth`. -/
structure PermitRefs where
  allowed_tokens : Nat
  permissions : Nat

/-- Dereference an array cell. -/
def heapGet (h : Heap) (r : Nat) : List String := h.getD r []

/-- Mutate an array cell in place. -/
def heapSet (h : Heap) (r : Nat) (v : List String) : Heap := h.set r v

/-- The array-cloning core of `cleanAndValidatePermit` under reference
semantics: `[...params.allowed_tokens]` and `[...params.permissions]`
each allocate a fresh cell holding a copy of the raw array's current
contents, and the canonical permit stores the fresh indices. -/
def cleanPermitArrays (h : Heap) (raw : RawPermitRefs) : Heap × PermitRefs :=
  (h ++ [heapGet h raw.allowed_tokens, heapGet h raw.permissions],
   { allowed_tokens := h.length, permissions := h.length + 1 })

/-! ## Concrete inputs used by witnesses and counterexamples -/

/-- A fully well-formed raw permit (matches the spec's end-to-end
scenario input). -/
def rawPermitValid : RawPermit :=
  { params := some
      { permit_name := some "p"
        allowed_tokens := some []
        permissions := some ["balance"]
        chain_id := some "secret-4" }
    signature := some
      { pub_key := some { type := some "tendermint/PubKeySecp256k1", value := some "AAA" }
        signature := some "BBB" }
    chain_id := none }

/-- The canonical permit `cleanAndValidatePermit` produces from
`rawPermitValid`. -/
def permitValid : Permit :=
  { params :=
      { permit_name := "p"
        allowed_tokens := []
        permissions := ["balance"]
        chain_id := "secret-4" }
    signature :=
      { pub_key := { type := "tendermint/PubKeySecp256k1", value := "AAA" }
        signature := "BBB" } }

/-- Raw params with a present but empty `permissions` array. -/
def rawParamsEmptyPermissions : RawParams :=
  { permit_name := some "test_permit"
    allowed_tokens := some ["secret1token"]
    permissions := some []
    chain_id := some "secret-4" }

/-- A raw permit that is well-formed except that `params.permissions`
is the empty array. -/
def rawPermitEmptyPermissions : RawPermit :=
  { params := some rawParamsEmptyPermissions
    signature := some
      { pub_key := some { type := some "tendermint/PubKeySecp256k1", value := some "AAA" }
        signature := some "BBB" }
    chain_id := none }

/-- The canonical permit `cleanAndValidatePermit` produces from
`rawPermitEmptyPermissions` (it is accepted, permissions and all). -/
def permitEmptyPermissions : Permit :=
  { params :=
      { permit_name := "test_permit"
        allowed_tokens := ["secret1token"]
        permissions := []
        chain_id := "secret-4" }
    signature :=
      { pub_key := { type := "tendermint/PubKeySecp256k1", value := "AAA" }
        signature := "BBB" } }

/-- A raw permit with well-formed params but no `signature` object at
all; `cleanAndValidatePermit` rejects it. -/
def rawPermitNoSignature : RawPermit :=
  { params := some
      { permit_name := some "p"
        allowed_tokens := some []
        permissions := some ["balance"]
        chain_id := some "secret-4" }
    signature := none
    chain_id := none }

/-- Raw params whose `chain_id` is present but the empty string. -/
def rawParamsEmptyChainId : RawParams :=
  { permit_name := some "p"
    allowed_tokens := some []
    permissions := some ["balance"]
    chain_id := some "" }

/-- A raw permit with `params.chain_id` set to `""` and a top-level
legacy `chain_id` set to `"legacy-chain"`. -/
def rawPermitEmptyChainId : RawPermit :=
  { params := some rawParamsEmptyChainId
    signature := some
      { pub_key := some { type := some "tendermint/PubKeySecp256k1", value := some "AAA" }
        signature := some "BBB" }
    chain_id := some "legacy-chain" }

/-- The canonical permit produced from `rawPermitEmptyChainId`: its
`chain_id` is the top-level `"legacy-chain"`, not the present-but-empty
`params.chain_id`. -/
def permitEmptyChainId : Permit :=
  { params :=
      { permit_name := "p"
        allowed_tokens := []
        permissions := ["balance"]
        chain_id := "legacy-chain" }
    signature :=
      { pub_key := { type := "tendermint/PubKeySecp256k1", value := "AAA" }
        signature := "BBB" } }

/-! # Theorems -/

/-- Inversion of `cleanAndValidatePermit`: a successful run pins down
exactly which raw fields were present and truthy, and the shape of the
canonical permit produced. -/
theorem cleanAndValidatePermit_ok_shape (raw : RawPermit) (pc : Permit)
    (h : cleanAndValidatePermit raw = Except.ok pc) :
    ∃ params signat pk tokens perms,
      raw.params = some params ∧
      raw.signature = some signat ∧
      signat.pub_key = some pk ∧
      truthyStr signat.signature = true ∧
      truthyStr params.permit_name = true ∧
      params.allowed_tokens = some tokens ∧
      params.permissions = some perms ∧
      truthyStr pk.type = true ∧
      truthyStr pk.value = true ∧
      pc = { params :=
               { permit_name := params.permit_name.getD ""
                 allowed_tokens := tokens
                 permissions := perms
                 chain_id :=
                   if truthyStr params.chain_id then params.chain_id.getD ""
                   else if truthyStr raw.chain_id then raw.chain_id.getD ""
                   else "secret-4" }
             signature :=
               { pub_key := { type := pk.type.getD "", value := pk.value.getD "" }
                 signature := signat.signature.getD "" } } := by
  simp only [cleanAndValidatePermit] at h
  split at h
  · exact absurd h (by simp)
  · rename_i params hparams
    split at h
    · exact absurd h (by simp)
    · rename_i signat hsignat
      split at h
      · exact absurd h (by simp)
      · rename_i pk hpk
        split at h
        · exact absurd h (by simp)
        · rename_i hsig
          split at h
          · exact absurd h (by simp)
          · rename_i hname
            split at h
            · exact absurd h (by simp)
            · rename_i tokens htokens
              split at h
              · exact absurd h (by simp)
              · rename_i perms hperms
                split at h
                · exact absurd h (by simp)
                · rename_i hpkfields
                  rw [Except.ok.injEq] at h
                  refine ⟨params, signat, pk, tokens, perms, hparams, hsignat, hpk,
                    ?_, ?_, htokens, hperms, ?_, ?_, ?_⟩
                  · simpa using hsig
                  · simpa using hname
                  · simp only [Bool.or_eq_true, Bool.not_eq_true', not_or,
                      Bool.not_eq_false] at hpkfields
                    exact hpkfields.1
                  · simp only [Bool.or_eq_true, Bool.not_eq_true', not_or,
                      Bool.not_eq_false] at hpkfields
                    exact hpkfields.2
                  · exact h.symm

/-- Every error `cleanAndValidatePermit` can produce is a plain `Error`,
never the `PermitValidationError` subclass. -/
theorem cleanAndValidatePermit_error_kind (raw : RawPermit) (e : PermitError)
    (h : cleanAndValidatePermit raw = Except.error e) : e.isValidationError = false := by
  simp only [cleanAndValidatePermit] at h
  split at h
  · injection h with h2; subst h2; rfl
  · split at h
    · injection h with h2; subst h2; rfl
    · split at h
      · injection h with h2; subst h2; rfl
      · split at h
        · injection h with h2; subst h2; rfl
        · split at h
          · injection h with h2; subst h2; rfl
          · split at h
            · injection h with h2; subst h2; rfl
            · split at h
              · injection h with h2; subst h2; rfl
              · split at h
                · injection h with h2; subst h2; rfl
                · exact absurd h (by simp)

/-- Every error `validatePermitParams` can produce is of the
`PermitValidationError` kind. -/
theorem validatePermitParams_error_kind (o : Option RawParams) (e : PermitError)
    (h : validatePermitParams o = Except.error e) : e.isValidationError = true := by
  simp only [validatePermitParams] at h
  split at h
  · injection h with h2; subst h2; rfl
  · split at h
    · injection h with h2; subst h2; rfl
    · split at h
      · injection h with h2; subst h2; rfl
      · split at h
        · injection h with h2; subst h2; rfl
        · split at h
          · injection h with h2; subst h2; rfl
          · split at h
            · injection h with h2; subst h2; rfl
            · exact absurd h (by simp)

/-- C1 counterexample: a raw permit whose `params.permissions` is the
present-but-empty array `[]` is *accepted* by `PermitAuth`'s
validate-and-clean step (`![]` is `false` in JavaScript, so the
`!params.permissions || !Array.isArray(...)` guard passes), so
construction does not fail at all — let alone with a
`PermitValidationError`. -/
theorem permitAuth_accepts_empty_permissions_cex :
    rawPermitEmptyPermissions.params = some rawParamsEmptyPermissions ∧
    rawParamsEmptyPermissions.permissions = some [] ∧
    cleanAndValidatePermit rawPermitEmptyPermissions = Except.ok permitEmptyPermissions :=
  ⟨rfl, rfl, rfl⟩

/-- C1 (amended): for every raw permit whose `params.permissions` is the
empty array, `PermitAuth` construction *succeeds* whenever the other
checks pass (carrying the empty permissions through to the canonical
permit), and any failure it can report is a plain `Error`, never a
`PermitValidationError`; the empty-permissions rejection with
`PermitValidationError` lives in the separate permits-module validator
`validatePermitParams`, which `PermitAuth` does not call. -/
theorem permitAuth_empty_permissions_amended (raw : RawPermit) (params : RawParams)
    (hp : raw.params = some params) (hperm : params.permissions = some []) :
    (∀ pc, cleanAndValidatePermit raw = Except.ok pc → pc.params.permissions = []) ∧
    (∀ e, cleanAndValidatePermit raw = Except.error e → e.isValidationError = false) ∧
    (∃ m, validatePermitParams raw.params = Except.error (PermitError.validationError m)) := by
  refine ⟨?_, fun e he => cleanAndValidatePermit_error_kind raw e he, ?_⟩
  · intro pc hok
    obtain ⟨params', signat, pk, tokens, perms, hp', _, _, _, _, _, hperms, _, _, rfl⟩ :=
      cleanAndValidatePermit_ok_shape raw pc hok
    rw [hp] at hp'
    injection hp' with h2
    subst h2
    rw [hperm] at hperms
    injection hperms with h3
    subst h3
    rfl
  · rw [hp]
    cases htn : truthyStr params.permit_name with
    | false =>
      exact ⟨"permit_name is required and must be a string",
        by simp [validatePermitParams, htn]⟩
    | true =>
      cases htc : truthyStr params.chain_id with
      | false =>
        exact ⟨"chain_id is required and must be a string",
          by simp [validatePermitParams, htn, htc]⟩
      | true =>
        cases hat : params.allowed_tokens with
        | none =>
          exact ⟨"allowed_tokens must be an array",
            by simp [validatePermitParams, htn, htc, hat]⟩
        | some ts =>
          exact ⟨"permissions array cannot be empty",
            by simp [validatePermitParams, htn, htc, hat, hperm]⟩

/-- C1 witness: the amended claim evaluated on the concrete
empty-permissions raw permit. -/
theorem permitAuth_empty_permissions_amended_witness :
    cleanAndValidatePermit rawPermitEmptyPermissions = Except.ok permitEmptyPermissions ∧
    permitEmptyPermissions.params.permissions = [] ∧
    validatePermitParams rawPermitEmptyPermissions.params =
      Except.error (PermitError.validationError "permissions array cannot be empty") :=
  ⟨rfl,
   (permitAuth_empty_permissions_amended rawPermitEmptyPermissions rawParamsEmptyPermissions
      rfl rfl).1 permitEmptyPermissions rfl,
   rfl⟩

/-- C2: for every raw permit accepted by `PermitAuth`'s validation and
every query object `query` of any shape, `wrap` produces exactly the
`with_permit` envelope holding the canonical permit produced at
construction and the query unchanged — independent of the query's
internal structure. -/
theorem permit_wrap_uniform (raw : RawPermit) (auth : PermitAuth) (query : Jv)
    (_h : PermitAuth.make raw = Except.ok auth) :
    auth.wrap query =
      Jv.obj [("with_permit",
        Jv.obj [("permit", encodePermit auth.permit), ("query", query)])] := rfl

/-- C2 witness: the uniform wrap evaluated on the spec's end-to-end
permit and the `\x7bbalance: \x7b\x7d\x7d` base query. -/
theorem permit_wrap_uniform_witness :
    PermitAuth.make rawPermitValid = Except.ok (PermitAuth.mk permitValid) ∧
    (PermitAuth.mk permitValid).wrap (Jv.obj [("balance", Jv.obj [])]) =
      Jv.obj [("with_permit",
        Jv.obj [("permit", encodePermit permitValid),
                ("query", Jv.obj [("balance", Jv.obj [])])])] :=
  ⟨rfl, permit_wrap_uniform rawPermitValid (PermitAuth.mk permitValid)
    (Jv.obj [("balance", Jv.obj [])]) rfl⟩

/-- C3 counterexample: a raw permit with `params.chain_id` *set* to the
empty string is accepted, but the canonical `chain_id` is not that set
value — JavaScript `||` treats `""` as falsy, so resolution falls back
to the top-level `chain_id` (`"legacy-chain"` here). -/
theorem chainId_precedence_cex :
    rawPermitEmptyChainId.params = some rawParamsEmptyChainId ∧
    rawParamsEmptyChainId.chain_id = some "" ∧
    cleanAndValidatePermit rawPermitEmptyChainId = Except.ok permitEmptyChainId ∧
    ¬ permitEmptyChainId.params.chain_id = "" :=
  ⟨rfl, rfl, rfl, by decide⟩

/-- C3 (amended): three-way `chain_id` precedence with "set" meaning
present *and non-empty* (JavaScript-truthy): a non-empty
`params.chain_id` wins; otherwise a non-empty top-level `raw.chain_id`
wins; otherwise the canonical `chain_id` is the literal `"secret-4"`. -/
theorem chainId_precedence_amended (raw : RawPermit) (params : RawParams) (pc : Permit)
    (hp : raw.params = some params) (hok : cleanAndValidatePermit raw = Except.ok pc) :
    (∀ c, params.chain_id = some c → ¬ c = "" → pc.params.chain_id = c) ∧
    (truthyStr params.chain_id = false →
      ∀ c, raw.chain_id = some c → ¬ c = "" → pc.params.chain_id = c) ∧
    (truthyStr params.chain_id = false → truthyStr raw.chain_id = false →
      pc.params.chain_id = "secret-4") := by
  obtain ⟨params', signat, pk, tokens, perms, hp', _, _, _, _, _, _, _, _, rfl⟩ :=
    cleanAndValidatePermit_ok_shape raw pc hok
  rw [hp] at hp'
  injection hp' with h2
  subst h2
  refine ⟨?_, ?_, ?_⟩
  · intro c hc hne
    simp [hc, truthyStr, hne]
  · intro hf c hc hne
    simp only [hf, Bool.false_eq_true, if_false]
    simp [hc, truthyStr, hne]
  · intro hf1 hf2
    simp [hf1, hf2]

/-- C3 witness: the amended precedence evaluated on the valid concrete
permit, whose non-empty `params.chain_id` `"secret-4"` wins. -/
theorem chainId_precedence_amended_witness :
    cleanAndValidatePermit rawPermitValid = Except.ok permitValid ∧
    permitValid.params.chain_id = "secret-4" :=
  ⟨rfl,
   (chainId_precedence_amended rawPermitValid
      ⟨some "p", some [], some ["balance"], some "secret-4"⟩ permitValid rfl rfl).1
     "secret-4" rfl (by decide)⟩

/-- C4: `ViewingKeyAuth.wrap` injects credentials per variant: a
`balance` query becomes exactly `\x7bbalance: \x7baddress, key\x7d\x7d` (any prior
content of the `balance` object is replaced), and an `allowance` query
bound to an object gets `key` merged into the existing `allowance`
object, preserving every other field (third conjunct: the merge leaves
every key other than `"key"` unchanged). -/
theorem viewingKey_injection (address viewingKey : String) (v : Jv)
    (fields : List (String × Jv)) :
    ViewingKeyAuth.wrap address viewingKey (Jv.obj [("balance", v)]) =
      Except.ok (Jv.obj
        [("balance", Jv.obj [("address", Jv.str address), ("key", Jv.str viewingKey)])]) ∧
    ViewingKeyAuth.wrap address viewingKey (Jv.obj [("allowance", Jv.obj fields)]) =
      Except.ok (Jv.obj
        [("allowance", Jv.obj (jsSetKey fields "key" (Jv.str viewingKey)))]) ∧
    (∀ k, ¬ k = "key" →
      jsLookup (jsSetKey fields "key" (Jv.str viewingKey)) k = jsLookup fields k) := by
  refine ⟨rfl, rfl, ?_⟩
  intro k hk
  have hbk : ("key" == k) = false := by
    rw [beq_eq_false_iff_ne]
    exact Ne.symm hk
  induction fields with
  | nil =>
    simp [jsSetKey, jsLookup, List.find?, hbk]
  | cons head tail ih =>
    obtain ⟨k', v'⟩ := head
    by_cases hkk : k' = "key"
    · subst hkk
      simp [jsSetKey, jsLookup, List.find?, hbk]
    · have hbkk : (k' == "key") = false := by
        rw [beq_eq_false_iff_ne]
        exact hkk
      simp only [jsSetKey, hbkk, Bool.false_eq_true, if_false]
      by_cases hkeq : k' = k
      · subst hkeq
        simp [jsLookup, List.find?]
      · have hbkeq : (k' == k) = false := by
          rw [beq_eq_false_iff_ne]
          exact hkeq
        simp only [jsLookup, List.find?, hbkeq] at ih ⊢
        exact ih

/-- C4 witness: the spec's own examples —
`wrap(\x7bbalance: \x7b\x7d\x7d)` and `wrap(\x7ballowance: \x7bowner, spender\x7d\x7d)` for
`ViewingKeyAuth("secret1abc", "key123")`. -/
theorem viewingKey_injection_witness :
    ViewingKeyAuth.wrap "secret1abc" "key123" (Jv.obj [("balance", Jv.obj [])]) =
      Except.ok (Jv.obj [("balance",
        Jv.obj [("address", Jv.str "secret1abc"), ("key", Jv.str "key123")])]) ∧
    ViewingKeyAuth.wrap "secret1abc" "key123"
        (Jv.obj [("allowance", Jv.obj [("owner", Jv.str "A"), ("spender", Jv.str "B")])]) =
      Except.ok (Jv.obj [("allowance",
        Jv.obj [("owner", Jv.str "A"), ("spender", Jv.str "B"), ("key", Jv.str "key123")])]) ∧
    jsLookup (jsSetKey [("owner", Jv.str "A"), ("spender", Jv.str "B")]
        "key" (Jv.str "key123")) "owner" =
      jsLookup [("owner", Jv.str "A"), ("spender", Jv.str "B")] "owner" := by
  have h := viewingKey_injection "secret1abc" "key123" (Jv.obj [])
    [("owner", Jv.str "A"), ("spender", Jv.str "B")]
  exact ⟨h.1, h.2.1, h.2.2 "owner" (by decide)⟩

/-- C5 counterexample: with no permit and `viewingKey` *present* but
equal to `""`, the adapter does not return the viewing-key-authenticated
balance query — JavaScript `if (viewingKey)` treats `""` as falsy, so it
falls through to the unauthenticated `\x7bbalance: \x7b\x7d\x7d`. -/
theorem formatTokenBalanceQuery_dispatch_cex :
    formatTokenBalanceQuery "secret1abc" (some "") none =
      Except.ok (Jv.obj [("balance", Jv.obj [])]) ∧
    ¬ (Jv.obj [("balance", Jv.obj [])] =
       Jv.obj [("balance",
         Jv.obj [("address", Jv.str "secret1abc"), ("key", Jv.str "")])]) :=
  ⟨rfl, by simp⟩

/-- C5 (amended): dispatch of `formatTokenBalanceQuery`: with a permit,
the new path's success is returned and any thrown error is swallowed in
favour of the legacy-cleaned `\x7bwith_permit: \x7bpermit: cleanPermit, query:
\x7bbalance: \x7b\x7d\x7d\x7d\x7d`; with no permit and a *non-empty* viewing key (and
non-empty address, else the `ViewingKeyAuth` constructor throws), the
viewing-key-authenticated balance query is returned; with neither (or an
empty viewing key), the unauthenticated `\x7bbalance: \x7b\x7d\x7d`. -/
theorem formatTokenBalanceQuery_dispatch (address : String) (viewingKey : Option String)
    (p : RawPermit) :
    (∀ pc, cleanAndValidatePermit p = Except.ok pc →
      formatTokenBalanceQuery address viewingKey (some p) =
        Except.ok ((PermitAuth.mk pc).wrap (Jv.obj [("balance", Jv.obj [])]))) ∧
    (∀ e, cleanAndValidatePermit p = Except.error e →
      formatTokenBalanceQuery address viewingKey (some p) =
        Except.ok (formatLegacyPermitQuery p)) ∧
    (∀ k, viewingKey = some k → ¬ k = "" → ¬ address = "" →
      formatTokenBalanceQuery address viewingKey none =
        Except.ok (Jv.obj
          [("balance", Jv.obj [("address", Jv.str address), ("key", Jv.str k)])])) ∧
    (truthyStr viewingKey = false →
      formatTokenBalanceQuery address viewingKey none =
        Except.ok (Jv.obj [("balance", Jv.obj [])])) := by
  refine ⟨?_, ?_, ?_, ?_⟩
  · intro pc h
    simp [formatTokenBalanceQuery, PermitAuth.make, h, Except.map]
  · intro e h
    simp [formatTokenBalanceQuery, PermitAuth.make, h, Except.map]
  · intro k hk hkne hane
    subst hk
    have h1 : truthyStr (some k) = true := by simp [truthyStr, hkne]
    have h2 : (address == "") = false := by
      rw [beq_eq_false_iff_ne]
      exact hane
    have h3 : (k == "") = false := by
      rw [beq_eq_false_iff_ne]
      exact hkne
    simp only [formatTokenBalanceQuery, h1, if_true, ViewingKeyAuth.make, Option.getD_some,
      h2, h3, Bool.false_eq_true, if_false]
    rfl
  · intro hf
    simp [formatTokenBalanceQuery, hf]

/-- C5 witness: the four dispatch branches evaluated on concrete
inputs — a valid permit, a permit with no signature (new path throws,
legacy result returned), a non-empty viewing key, and no credential. -/
theorem formatTokenBalanceQuery_dispatch_witness :
    formatTokenBalanceQuery "secret1abc" none (some rawPermitValid) =
      Except.ok ((PermitAuth.mk permitValid).wrap (Jv.obj [("balance", Jv.obj [])])) ∧
    formatTokenBalanceQuery "secret1abc" none (some rawPermitNoSignature) =
      Except.ok (formatLegacyPermitQuery rawPermitNoSignature) ∧
    formatTokenBalanceQuery "secret1abc" (some "key123") none =
      Except.ok (Jv.obj
        [("balance", Jv.obj [("address", Jv.str "secret1abc"), ("key", Jv.str "key123")])]) ∧
    formatTokenBalanceQuery "secret1abc" none none =
      Except.ok (Jv.obj [("balance", Jv.obj [])]) :=
  ⟨(formatTokenBalanceQuery_dispatch "secret1abc" none rawPermitValid).1 permitValid rfl,
   (formatTokenBalanceQuery_dispatch "secret1abc" none rawPermitNoSignature).2.1
     (PermitError.genericError "Invalid permit: missing signature object") rfl,
   (formatTokenBalanceQuery_dispatch "secret1abc" (some "key123") rawPermitValid).2.2.1
     "key123" rfl (by decide) (by decide),
   (formatTokenBalanceQuery_dispatch "secret1abc" none rawPermitValid).2.2.2 rfl⟩

/-- C6: on a validated permit, `hasPermission` is membership in
`params.permissions`, and `isTokenAllowed` holds exactly when
`params.allowed_tokens` is empty (empty means all tokens allowed) or the
token is a member of it. -/
theorem permission_scope_predicates (permit : Permit) (p tokenId : String) :
    (hasPermission permit p = true ↔ p ∈ permit.params.permissions) ∧
    (isTokenAllowed permit tokenId = true ↔
      permit.params.allowed_tokens = [] ∨ tokenId ∈ permit.params.allowed_tokens) := by
  constructor
  · simp [hasPermission, List.contains, List.elem_iff]
  · simp [isTokenAllowed, List.contains, List.elem_iff, List.length_eq_zero]

/-- C6 witness: the spec's example — permit with `permissions:
["balance"]` and `allowed_tokens: []`. -/
theorem permission_scope_predicates_witness :
    hasPermission permitValid "balance" = true ∧
    isTokenAllowed permitValid "anyTokenAddr" = true := by
  have h := permission_scope_predicates permitValid "balance" "anyTokenAddr"
  exact ⟨h.1.mpr (by decide), h.2.mpr (Or.inl rfl)⟩

/-- C7: `AllowanceQuery` enforces its required fields at `build()` time:
with no owner or no spender set, `build()` fails regardless of the other
fields, while `AllowanceQuery.between("ownerX", "spenderY").build()`
(no auth method set) succeeds with exactly
`\x7ballowance: \x7bowner, spender\x7d\x7d`. -/
theorem allowance_required_fields (owner spender : Option String) (auth : Option AuthMethod)
    (h : owner = none ∨ spender = none) :
    ((AllowanceQuery.mk owner spender auth).build).isOk = false ∧
    (AllowanceQuery.between "ownerX" "spenderY").build =
      Except.ok (Jv.obj
        [("allowance",
          Jv.obj [("owner", Jv.str "ownerX"), ("spender", Jv.str "spenderY")])]) := by
  constructor
  · rcases h with rfl | rfl
    · simp [AllowanceQuery.build, AllowanceQuery.buildQuery, truthyStr, Except.isOk,
        Except.toBool, bind, Except.bind]
    · cases owner with
      | none =>
        simp [AllowanceQuery.build, AllowanceQuery.buildQuery, truthyStr, Except.isOk,
          Except.toBool, bind, Except.bind]
      | some o =>
        by_cases ho : o = ""
        · subst ho
          simp [AllowanceQuery.build, AllowanceQuery.buildQuery, truthyStr, Except.isOk,
            Except.toBool, bind, Except.bind]
        · simp [AllowanceQuery.build, AllowanceQuery.buildQuery, truthyStr, Except.isOk,
            Except.toBool, bind, Except.bind, ho]
  · rfl

/-- C7 witness: `AllowanceQuery.create().build()` (nothing set) fails,
and the two-address builder succeeds with the exact query object. -/
theorem allowance_required_fields_witness :
    ((AllowanceQuery.mk none none none).build).isOk = false ∧
    (AllowanceQuery.between "ownerX" "spenderY").build =
      Except.ok (Jv.obj
        [("allowance",
          Jv.obj [("owner", Jv.str "ownerX"), ("spender", Jv.str "spenderY")])]) :=
  allowance_required_fields none none none (Or.inl rfl)

/-- C8 counterexample: on `["bad1", "bad2"]` (two invalid entries),
`validateNFTPermissions` throws at the *first* invalid entry — the
message names `bad1` and the full valid set but does not mention `bad2`
anywhere (its character sequence is not an infix of the message), so the
error does not list *the invalid entries*. -/
theorem validateNFTPermissions_first_only_cex :
    validateNFTPermissions ["bad1", "bad2"] =
      Except.error (PermitError.validationError
        "Invalid NFT permission: bad1. Valid permissions: balance, history, metadata, owner, private_metadata, royalty_info, tokens, token_approvals, inventory_approvals") ∧
    ¬ "bad2".data <:+: "Invalid NFT permission: bad1. Valid permissions: balance, history, metadata, owner, private_metadata, royalty_info, tokens, token_approvals, inventory_approvals".data :=
  ⟨rfl, by
    set_option maxRecDepth 4000 in decide⟩

/-- C8 (amended): `validateNFTPermissions` succeeds (returns `true`) iff
every entry belongs to the fixed nine-element vocabulary; otherwise it
fails with a `PermitValidationError` whose message names the *first*
invalid entry and the full valid set. -/
theorem validateNFTPermissions_amended (perms : List String) :
    (validateNFTPermissions perms = Except.ok true ↔
      ∀ p ∈ perms, p ∈ validNFTPermissions) ∧
    (∀ bad, perms.find? (fun p => !(validNFTPermissions.contains p)) = some bad →
      validateNFTPermissions perms = Except.error (PermitError.validationError
        ("Invalid NFT permission: " ++ bad ++ ". Valid permissions: "
          ++ String.intercalate ", " validNFTPermissions))) := by
  induction perms with
  | nil =>
    constructor
    · simp [validateNFTPermissions]
    · intro bad hbad
      simp [List.find?] at hbad
  | cons q rest ih =>
    by_cases hqm : q ∈ validNFTPermissions
    · have hq : validNFTPermissions.contains q = true := List.elem_iff.mpr hqm
      constructor
      · simp [validateNFTPermissions, hq, hqm, ih.1]
      · intro bad hbad
        rw [List.find?_cons_of_neg _ (by simpa using hqm)] at hbad
        have hrest := ih.2 bad hbad
        simp [validateNFTPermissions, hq, hqm, hrest]
    · have hq : validNFTPermissions.contains q = false := by
        rw [← Bool.not_eq_true]
        intro hc
        exact hqm (List.elem_iff.mp hc)
      constructor
      · constructor
        · intro hcontra
          exact absurd hcontra (by simp [validateNFTPermissions, hq, hqm])
        · intro hall
          exact absurd (hall q (List.mem_cons_self q rest)) hqm
      · intro bad hbad
        rw [List.find?_cons_of_pos _ (by simpa using hqm)] at hbad
        injection hbad with h2
        subst h2
        simp [validateNFTPermissions, hq, hqm]

/-- C8 witness: the amended failure shape evaluated on
`["bad1", "bad2"]`, whose first invalid entry is `"bad1"`. -/
theorem validateNFTPermissions_amended_witness :
    validateNFTPermissions ["bad1", "bad2"] =
      Except.error (PermitError.validationError
        ("Invalid NFT permission: " ++ "bad1" ++ ". Valid permissions: "
          ++ String.intercalate ", " validNFTPermissions)) :=
  (validateNFTPermissions_amended ["bad1", "bad2"]).2 "bad1" rfl

/-- C9: the canonical permit's arrays are defensive copies — under the
explicit-store model of the cloning step, mutating the raw permit's
`allowed_tokens` (or `permissions`) cell after construction leaves the
cells held by the constructed permit unchanged, because the clone
allocated fresh cells. -/
theorem permit_defensive_copy (h : Heap) (raw : RawPermitRefs) (v : List String)
    (hat : raw.allowed_tokens < h.length) (hperm : raw.permissions < h.length) :
    heapGet (heapSet (cleanPermitArrays h raw).1 raw.allowed_tokens v)
        (cleanPermitArrays h raw).2.allowed_tokens = heapGet h raw.allowed_tokens ∧
    heapGet (heapSet (cleanPermitArrays h raw).1 raw.permissions v)
        (cleanPermitArrays h raw).2.permissions = heapGet h raw.permissions := by
  constructor
  · show heapGet (heapSet (h ++ [heapGet h raw.allowed_tokens, heapGet h raw.permissions])
      raw.allowed_tokens v) h.length = heapGet h raw.allowed_tokens
    rw [heapGet, heapSet, List.getD_eq_getElem?_getD,
      List.getElem?_set_ne (Nat.ne_of_lt hat),
      List.getElem?_append_right (Nat.le_refl h.length)]
    simp
  · show heapGet (heapSet (h ++ [heapGet h raw.allowed_tokens, heapGet h raw.permissions])
      raw.permissions v) (h.length + 1) = heapGet h raw.permissions
    rw [heapGet, heapSet, List.getD_eq_getElem?_getD,
      List.getElem?_set_ne (Nat.ne_of_lt (Nat.lt_succ_of_lt hperm)),
      List.getElem?_append_right (Nat.le_succ_of_le (Nat.le_refl h.length))]
    simp

/-- C9 witness: a two-cell heap; overwriting the raw permit's cells with
`["mutated"]` leaves the cloned cells reading their original contents. -/
theorem permit_defensive_copy_witness :
    heapGet (heapSet (cleanPermitArrays [["tokenA"], ["balance"]] ⟨0, 1⟩).1 0 ["mutated"])
        (cleanPermitArrays [["tokenA"], ["balance"]] ⟨0, 1⟩).2.allowed_tokens = ["tokenA"] ∧
    heapGet (heapSet (cleanPermitArrays [["tokenA"], ["balance"]] ⟨0, 1⟩).1 1 ["mutated"])
        (cleanPermitArrays [["tokenA"], ["balance"]] ⟨0, 1⟩).2.permissions = ["balance"] := by
  have h := permit_defensive_copy [["tokenA"], ["balance"]] ⟨0, 1⟩ ["mutated"]
    (by decide) (by decide)
  exact ⟨h.1, h.2⟩

/-- C10: `ViewingKeyAuth.wrap` never throws on an object-shaped query:
every object input produces a result (`isOk`), and any object matching
none of the `balance`/`allowance`(truthy)/`transfer_history`/
`transaction_history` variants takes the generic branch that merges
`viewer: \x7baddress, viewing_key\x7d` alongside the existing content — the
trailing unsupported-query-type throw is unreachable for object inputs. -/
theorem viewingKey_wrap_total_on_objects (address viewingKey : String)
    (fields : List (String × Jv)) :
    (ViewingKeyAuth.wrap address viewingKey (Jv.obj fields)).isOk = true ∧
    (jsHasKey fields "balance" = false →
     (jsHasKey fields "allowance" && jsTruthy (jsGetD fields "allowance")) = false →
     jsHasKey fields "transfer_history" = false →
     jsHasKey fields "transaction_history" = false →
     ViewingKeyAuth.wrap address viewingKey (Jv.obj fields) =
       Except.ok (Jv.obj (jsSetKey fields "viewer"
         (Jv.obj [("address", Jv.str address), ("viewing_key", Jv.str viewingKey)])))) := by
  constructor
  · simp only [ViewingKeyAuth.wrap]
    by_cases h1 : jsHasKey fields "balance"
    · simp [h1, Except.isOk, Except.toBool]
    · by_cases h2 : (jsHasKey fields "allowance" && jsTruthy (jsGetD fields "allowance")) = true
      · simp [h1, h2, Except.isOk, Except.toBool]
      · by_cases h3 : jsHasKey fields "transfer_history"
        · simp [h1, h2, h3, Except.isOk, Except.toBool]
        · by_cases h4 : jsHasKey fields "transaction_history"
          · simp [h1, h2, h3, h4, Except.isOk, Except.toBool]
          · simp [h1, h2, h3, h4, Except.isOk, Except.toBool, jsIsObjectNotNull]
  · intro h1 h2 h3 h4
    simp [ViewingKeyAuth.wrap, h1, h2, h3, h4, jsIsObjectNotNull]

/-- C10 witness: an unrecognized single-key object (`\x7btoken_info: \x7b\x7d\x7d`)
is wrapped via the generic `viewer` merge and no error is thrown. -/
theorem viewingKey_wrap_total_on_objects_witness :
    (ViewingKeyAuth.wrap "secret1abc" "key123"
      (Jv.obj [("token_info", Jv.obj [])])).isOk = true ∧
    ViewingKeyAuth.wrap "secret1abc" "key123" (Jv.obj [("token_info", Jv.obj [])]) =
      Except.ok (Jv.obj
        [("token_info", Jv.obj []),
         ("viewer", Jv.obj [("address", Jv.str "secret1abc"),
                            ("viewing_key", Jv.str "key123")])]) := by
  have h := viewingKey_wrap_total_on_objects "secret1abc" "key123" [("token_info", Jv.obj [])]
  exact ⟨h.1, h.2 rfl rfl rfl rfl⟩

end SecretMcp
